import Mathlib

/-!
Shallow embedding of the reconciliation engine of the
rabbitmq user-credential updater (package `updater`, files
`event_handler.go` and `password_updater.go`), together with proofs of
the specification claims about it.

The remote RabbitMQ management service is modelled as an oracle
(`Env`) whose answer to each call may depend on the full history of
calls made so far, so that arbitrary interleavings of remote state
changes during a pass are representable.  Every remote call is
recorded in a trace of `CallEvent`s carrying the credentials the
client used for that call and the outcome.
-/

instance {ε α : Type} [DecidableEq ε] [DecidableEq α] : DecidableEq (Except ε α) := fun a b =>
  match a, b with
  | .ok x, .ok y =>
    if h : x = y then .isTrue (h ▸ rfl) else .isFalse (fun hc => h (Except.ok.inj hc))
  | .error x, .error y =>
    if h : x = y then .isTrue (h ▸ rfl) else .isFalse (fun hc => h (Except.error.inj hc))
  | .ok _, .error _ => .isFalse Except.noConfusion
  | .error _, .ok _ => .isFalse Except.noConfusion

namespace Updater

/-- Models `strings.HasPrefix`. -/
def strStartsWith (s p : String) : Bool := p.data.isPrefixOf s.data

/-- Models `strings.HasSuffix`. -/
def strEndsWith (s p : String) : Bool := p.data.isSuffixOf s.data

/-- Drops the first `n` characters of a string. -/
def strDrop (s : String) (n : Nat) : String := { data := s.data.drop n }

/-- Drops the last `n` characters of a string. -/
def strDropRight (s : String) (n : Nat) : String :=
  { data := s.data.take (s.data.length - n) }

/-- Models `strings.TrimSpace`: strip leading and trailing whitespace. -/
def strTrim (s : String) : String :=
  { data := ((s.data.dropWhile Char.isWhitespace).reverse.dropWhile Char.isWhitespace).reverse }

/-- Character length of a string. -/
def strLen (s : String) : Nat := s.data.length

/-- Embeds the constant `adminUserID = "admin"` of event_handler.go. -/
def adminUserID : String := "admin"

/-- Embeds the constant `adminFileSection = "default"` of event_handler.go. -/
def adminFileSection : String := "default"

/-- Embeds the constant `userFilePrefix = "user_"` of event_handler.go
(renamed here). -/
def userFileStart : String := "user_"

/-- Embeds the username-file suffix of the documented secret-file naming
convention `user_<id>_{username,password,tag}` (main.go flag help); the
constant itself is declared outside the sources at hand. -/
def usernameFileSuffix : String := "_username"

/-- Embeds the password-file suffix of the naming convention; see
`usernameFileSuffix`. -/
def passwordFileSuffix : String := "_password"

/-- Embeds the tag-file suffix of the naming convention; see
`usernameFileSuffix`. -/
def tagFileSuffix : String := "_tag"

/-- Embeds the error string `errUnauthorized` of event_handler.go. -/
def errUnauthorized : String := "Error: API responded with a 401 Unauthorized"

/-- Embeds the error string `errNotFound` of event_handler.go. -/
def errNotFound : String := "Error 404 (Object Not Found): Not Found"

/-- Embeds `rabbithole.HashingAlgorithmSHA256`. -/
def hashingAlgorithmSHA256 : String := "rabbit_password_hashing_sha256"

/-- Embeds `rabbithole.Permissions`. -/
structure Permissions where
  configure : String
  write : String
  read : String
deriving DecidableEq, Repr

/-- Embeds `defaultUserPermissions = Permissions{Configure: ".*", Write: ".*", Read: ".*"}`. -/
def defaultUserPermissions : Permissions :=
  { configure := ".*", write := ".*", read := ".*" }

/-- Embeds `updater.UserCredentials`. -/
structure UserCredentials where
  username : String
  password : String
  tag : String
deriving DecidableEq, Repr

/-- Embeds the parts of `rabbithole.UserInfo` the engine reads. -/
structure UserInfo where
  name : String
  tags : List String
  hashingAlgorithm : String
deriving DecidableEq, Repr

/-- Embeds `rabbithole.UserSettings` as built by `updateInRabbitMQ`. -/
structure UserSettings where
  name : String
  tags : List String
  password : String
  hashingAlgorithm : String
deriving DecidableEq, Repr

/-- Remote-call errors, identified (as in the Go code, which compares
`err.Error()` strings) by the message they render to. -/
inductive RErr where
  | unauthorized
  | notFound
  | other (msg : String)
deriving DecidableEq, Repr

/-- The message a remote error renders to; branch decisions in the code
compare these strings. -/
def RErr.message : RErr → String
  | .unauthorized => errUnauthorized
  | .notFound => errNotFound
  | .other m => m

/-- One recorded remote call: which call, the credentials the client
used for it, and the error outcome (`none` = success). -/
inductive CallEvent where
  | getUser (authUser authPass target : String) (res : Option RErr)
  | putUser (authUser authPass target : String) (settings : UserSettings) (res : Option RErr)
  | updPerms (authUser authPass vhost target : String) (perms : Permissions) (res : Option RErr)
  | whoami (authUser authPass : String) (res : Option RErr)
deriving DecidableEq, Repr

/-- True for upsert (`PutUser`) events. -/
def isPutUserEvent : CallEvent → Bool
  | .putUser _ _ _ _ _ => true
  | _ => false

/-- The remote service as a deterministic oracle over the call history:
each field answers one RabbitClient call given the trace so far and the
credentials the client presents. -/
structure Env where
  getUser : List CallEvent → String → String → String → Except RErr UserInfo
  putUser : List CallEvent → String → String → String → UserSettings → Option RErr
  updPerms : List CallEvent → String → String → String → String → Permissions → Option RErr
  whoami : List CallEvent → String → String → Option RErr

/-- The mutable credential fields of one `RabbitClient` instance
(`SetUsername`/`SetPassword`/`GetUsername`). -/
structure ClientState where
  username : String
  password : String
deriving DecidableEq, Repr

/-- Association-list lookup, modelling Go `m[k]` presence queries. -/
def alFind {β : Type} : List (String × β) → String → Option β
  | [], _ => none
  | (k2, v) :: rest, k => if k2 = k then some v else alFind rest k

/-- Association-list insert/update, modelling Go `m[k] = v`. -/
def alInsert {β : Type} : List (String × β) → String → β → List (String × β)
  | [], k, v => [(k, v)]
  | (k2, v2) :: rest, k, v =>
      if k2 = k then (k, v) :: rest else (k2, v2) :: alInsert rest k v

/-- Go map of user id to credentials (`map[string]UserCredentials`). -/
abbrev CredMap := List (String × UserCredentials)

/-- The zero value of `UserCredentials`, returned by a Go map read at a
missing key. -/
def emptyCred : UserCredentials := { username := "", password := "", tag := "" }

/-- Go map read with zero-value default (`m[k]` in expression position). -/
def mapGet (m : CredMap) (k : String) : UserCredentials :=
  (alFind m k).getD emptyCred

/-- The admin ini file as a list of sections, each a list of key/value
pairs; models the state of `gopkg.in/ini.v1` key-value content. -/
structure IniFile where
  sections : List (String × List (String × String))
deriving DecidableEq, Repr

/-- Models `ini.LooseLoad`: a missing file loads as an empty document. -/
def looseLoad : Option IniFile → IniFile
  | none => { sections := [] }
  | some f => f

/-- Models `cfg.Section(sec).Key(key).String()`: empty string at a
missing section or key. -/
def iniGet (cfg : IniFile) (sec key : String) : String :=
  (alFind ((alFind cfg.sections sec).getD []) key).getD ""

/-- Models `cfg.Section(sec).Key(key).SetValue(val)`: only the addressed
key of the addressed section changes. -/
def iniSet (cfg : IniFile) (sec key val : String) : IniFile :=
  { sections := alInsert cfg.sections sec
      (alInsert ((alFind cfg.sections sec).getD []) key val) }

/-- Embeds `PasswordUpdater.authenticate` (event_handler.go:258): one
`Whoami` call with the client's current credentials; returns its error,
if any. -/
def authenticate (env : Env) (c : ClientState) (tr : List CallEvent) :
    List CallEvent × Option RErr :=
  let r := env.whoami tr c.username c.password
  (tr ++ [CallEvent.whoami c.username c.password r], r)

/-- Embeds `PasswordUpdater.handleHTTPError` (event_handler.go:230).
On an error whose message is the 401 string: set the client password to
`newPasswd`, then return the result of `authenticate`.  On a 404 during
GET: return the error unchanged (caller treats it as "create user").
Otherwise: return the error unchanged. -/
def handleHTTPError (env : Env) (c : ClientState) (tr : List CallEvent)
    (err : Option RErr) (httpMethod pathUsers newPasswd : String) :
    ClientState × List CallEvent × Option RErr :=
  match err with
  | none => (c, tr, none)
  | some e =>
    if e.message = errUnauthorized then
      let c2 : ClientState := { c with password := newPasswd }
      let res := authenticate env c2 tr
      (c2, res.fst, res.snd)
    else if e.message = errNotFound ∧ httpMethod = "GET" then
      (c, tr, some e)
    else
      (c, tr, some e)

/-- Embeds the PUT half of `PasswordUpdater.updateInRabbitMQ`
(event_handler.go:204-227): build the settings (preserving an existing
hashing algorithm, defaulting to SHA-256), `PutUser`, route a PUT error
through `handleHTTPError`, and grant the default permissions on vhost
"/" when the user was newly created. -/
def putUserPhase (env : Env) (c : ClientState) (tr : List CallEvent)
    (cred : UserCredentials) (spec : CredMap) (pathUsers : String)
    (user : Option UserInfo) (isNewUser : Bool) :
    ClientState × List CallEvent × Option RErr :=
  let hashingAlgorithm :=
    match user with
    | some ui => ui.hashingAlgorithm
    | none => hashingAlgorithmSHA256
  let newUserSettings : UserSettings :=
    { name := cred.username, tags := [cred.tag], password := cred.password,
      hashingAlgorithm := hashingAlgorithm }
  let rPut := env.putUser tr c.username c.password cred.username newUserSettings
  let tr2 := tr ++ [CallEvent.putUser c.username c.password cred.username newUserSettings rPut]
  match rPut with
  | some e => handleHTTPError env c tr2 (some e) "PUT" pathUsers (mapGet spec adminUserID).password
  | none =>
    if isNewUser then
      let rPerm := env.updPerms tr2 c.username c.password "/" cred.username defaultUserPermissions
      let tr3 := tr2 ++
        [CallEvent.updPerms c.username c.password "/" cred.username defaultUserPermissions rPerm]
      match rPerm with
      | some e =>
        (c, tr3, some (RErr.other ("failed to update permissions on RabbitMQ server: " ++ e.message)))
      | none => (c, tr3, none)
    else (c, tr2, none)

/-- Embeds `PasswordUpdater.updateInRabbitMQ` (event_handler.go:186):
`GetUser` with the current credentials, route the error through
`handleHTTPError` (a surviving 404 marks a new user; any other surviving
error aborts), then continue with `putUserPhase`. -/
def updateInRabbitMQ (env : Env) (c : ClientState) (tr : List CallEvent)
    (cred : UserCredentials) (spec : CredMap) :
    ClientState × List CallEvent × Option RErr :=
  let pathUsers := "/api/users/" ++ cred.username
  let rGet := env.getUser tr c.username c.password cred.username
  let user : Option UserInfo := match rGet with | .ok ui => some ui | .error _ => none
  let errGet : Option RErr := match rGet with | .ok _ => none | .error e => some e
  let tr1 := tr ++ [CallEvent.getUser c.username c.password cred.username errGet]
  match handleHTTPError env c tr1 errGet "GET" pathUsers (mapGet spec adminUserID).password with
  | (c2, tr2, some e) =>
    if e.message = errNotFound then putUserPhase env c2 tr2 cred spec pathUsers user true
    else (c2, tr2, some e)
  | (c2, tr2, none) => putUserPhase env c2 tr2 cred spec pathUsers user false

/-- Embeds `PasswordUpdater.checkAdminFile` (event_handler.go:298):
loose-load the admin file and compare the trimmed `username` and
`password` keys of the default section against the credential. -/
def checkAdminFile (file : Option IniFile) (cred : UserCredentials) : Bool :=
  let cfg := looseLoad file
  if strTrim (iniGet cfg adminFileSection "username") ≠ cred.username ∨
     strTrim (iniGet cfg adminFileSection "password") ≠ cred.password then false
  else true

/-- Embeds `PasswordUpdater.updateAdminFile` (event_handler.go:282):
loose-load the admin file and set the `username` and `password` keys of
the default section, leaving everything else as loaded. -/
def updateAdminFile (file : Option IniFile) (cred : UserCredentials) : IniFile :=
  let cfg := looseLoad file
  let cfg2 := iniSet cfg adminFileSection "username" cred.username
  iniSet cfg2 adminFileSection "password" cred.password

/-- Embeds the fields of `updater.PasswordUpdater` the engine mutates:
the two client instances, Last-Applied State (`CredentialState`),
Desired State (`CredentialSpec`), and the admin file. -/
structure PUState where
  adminClient : ClientState
  authClient : ClientState
  credentialState : CredMap
  credentialSpec : CredMap
  adminFile : Option IniFile
deriving DecidableEq, Repr

/-- Loop-control outcome of one iteration of the `processSecrets` range
loop: `cont` is `continue`, `halt none` is `break` (the pass then
returns nil), `halt (some e)` is `return err`. -/
inductive StepRes where
  | cont
  | halt (err : Option String)
deriving DecidableEq, Repr

/-- Embeds the admin-file block of `processSecrets`
(event_handler.go:159-181): check the admin file, rewrite it on
mismatch, then re-authenticate purely for observability (the result is
discarded). -/
def adminFileSync (env : Env) (st : PUState) (tr : List CallEvent)
    (newCred : UserCredentials) : PUState × List CallEvent :=
  let correct := checkAdminFile st.adminFile newCred
  let st2 := if correct then st
             else { st with adminFile := some (updateAdminFile st.adminFile newCred) }
  let res := authenticate env st2.adminClient tr
  (st2, res.fst)

/-- Embeds the apply-and-commit tail of the `processSecrets` loop body
(event_handler.go:142-181): `updateInRabbitMQ`; on error, break out of
the loop (the pass returns nil); on success, commit the new credential
to `CredentialState`, reset the admin client credentials from state,
and for the admin account run `adminFileSync`. -/
def applyEntry (env : Env) (st : PUState) (tr : List CallEvent)
    (userID : String) (creds : UserCredentials) :
    PUState × List CallEvent × StepRes :=
  let newCred : UserCredentials :=
    { username := creds.username, password := creds.password, tag := creds.tag }
  match updateInRabbitMQ env st.adminClient tr newCred st.credentialSpec with
  | (c, tr2, some _) => ({ st with adminClient := c }, tr2, StepRes.halt none)
  | (c, tr2, none) =>
    let st2 : PUState := { st with
        adminClient := c
        credentialState := alInsert st.credentialState userID newCred }
    let adminCred := mapGet st2.credentialState adminUserID
    let st3 : PUState := { st2 with
        adminClient := { username := adminCred.username, password := adminCred.password } }
    if userID = adminUserID then
      let res := adminFileSync env st3 tr2 newCred
      (res.fst, res.snd, StepRes.cont)
    else (st3, tr2, StepRes.cont)

/-- The dirtiness test of the `processSecrets` loop
(event_handler.go:117-121): an account is clean when present in
`CredentialState` with the same password and tag. -/
def credsUnchanged (stateMap : CredMap) (userID : String)
    (creds : UserCredentials) : Bool :=
  match alFind stateMap userID with
  | some s => s.password == creds.password && s.tag == creds.tag
  | none => false

/-- Embeds one iteration of the `processSecrets` range loop body
(event_handler.go:113-181): skip clean accounts; for the admin account
first verify authentication with the current credentials (and once more
if the authenticated username differs from the desired one), aborting
the pass on failure; then `applyEntry`. -/
def processEntry (env : Env) (st : PUState) (tr : List CallEvent)
    (userID : String) (creds : UserCredentials) :
    PUState × List CallEvent × StepRes :=
  if credsUnchanged st.credentialState userID creds then (st, tr, StepRes.cont)
  else if userID = adminUserID then
    match authenticate env st.adminClient tr with
    | (tr1, some e) =>
      (st, tr1, StepRes.halt
        (some ("failed to authenticate with current admin credentials: " ++ e.message)))
    | (tr1, none) =>
      let currentAdminUser := st.adminClient.username
      if currentAdminUser ≠ creds.username then
        match authenticate env st.adminClient tr1 with
        | (tr2, some e) =>
          (st, tr2, StepRes.halt
            (some ("failed to authenticate with current admin credentials: " ++ e.message)))
        | (tr2, none) => applyEntry env st tr2 userID creds
      else applyEntry env st tr1 userID creds
  else applyEntry env st tr userID creds

/-- The `processSecrets` range loop over the freshly loaded Desired
State, with Go's `continue`/`break`/`return` realised through
`StepRes`. -/
def processLoop (env : Env) (st : PUState) (tr : List CallEvent) :
    List (String × UserCredentials) → PUState × List CallEvent × Option String
  | [] => (st, tr, none)
  | (userID, creds) :: rest =>
    match processEntry env st tr userID creds with
    | (st2, tr2, StepRes.cont) => processLoop env st2 tr2 rest
    | (st2, tr2, StepRes.halt e) => (st2, tr2, e)

/-- Embeds the scan loop of `loadSecrets` (password_updater.go:71-122)
over a directory listing of (file name, file content) pairs: group the
`user_<id>_{username,password,tag}` files into per-id credential
records, trimming whitespace from every value. -/
def loadSecretsLoop : List (String × String) → CredMap → CredMap
  | [], m => m
  | (name, content) :: rest, m =>
    if ¬ strStartsWith name userFileStart then loadSecretsLoop rest m
    else if strEndsWith name usernameFileSuffix then
      let userID := strDropRight (strDrop name (strLen userFileStart)) (strLen usernameFileSuffix)
      let value := strTrim content
      let cred := mapGet m userID
      loadSecretsLoop rest (alInsert m userID { cred with username := value })
    else if strEndsWith name passwordFileSuffix then
      let userID := strDropRight (strDrop name (strLen userFileStart)) (strLen passwordFileSuffix)
      let value := strTrim content
      let cred := mapGet m userID
      loadSecretsLoop rest (alInsert m userID { cred with password := value })
    else if strEndsWith name tagFileSuffix then
      let userID := strDropRight (strDrop name (strLen userFileStart)) (strLen tagFileSuffix)
      let value := strTrim content
      let cred := mapGet m userID
      let newTag := if value ≠ "" then value else ""
      loadSecretsLoop rest (alInsert m userID { cred with tag := newTag })
    else loadSecretsLoop rest m

/-- Embeds the validation loop of `loadSecrets`
(password_updater.go:124-135): fail on the first admin record missing a
username or password; merely log other incomplete records. -/
def validateSecrets : CredMap → Option String
  | [] => none
  | (userID, cred) :: rest =>
    if cred.username = "" ∨ cred.password = "" then
      if userID = adminUserID then
        some "incomplete credentials during load, missing username or password for admin user"
      else validateSecrets rest
    else validateSecrets rest

/-- Embeds `updater.loadSecrets` (password_updater.go:63): scan the
directory, then validate the assembled map. -/
def loadSecrets (dir : List (String × String)) : Except String CredMap :=
  let m := loadSecretsLoop dir []
  match validateSecrets m with
  | some e => Except.error e
  | none => Except.ok m

/-- Embeds `PasswordUpdater.processSecrets` (event_handler.go:102):
reset the admin client credentials from Last-Applied State, reload the
Desired State from the directory (failure aborts the pass with an
error), then run the per-account loop. -/
def processSecrets (env : Env) (st : PUState) (dir : List (String × String)) :
    PUState × List CallEvent × Option String :=
  let adminCred := mapGet st.credentialState adminUserID
  let st2 : PUState := { st with
      adminClient := { username := adminCred.username, password := adminCred.password } }
  match loadSecrets dir with
  | Except.error e => (st2, [], some ("failed to load credential state: " ++ e))
  | Except.ok spec =>
    let st3 : PUState := { st2 with credentialSpec := spec }
    processLoop env st3 [] spec

/-! ### Concrete scenarios

Fixed oracles, states and directory listings used to evaluate the
engine on concrete inputs. -/

/-- An oracle no theorem ever evaluates a call of. -/
def envNull : Env :=
  { getUser := fun _ _ _ _ => Except.error (RErr.other "unused")
    putUser := fun _ _ _ _ _ => some (RErr.other "unused")
    updPerms := fun _ _ _ _ _ _ => some (RErr.other "unused")
    whoami := fun _ _ _ => some (RErr.other "unused") }

/-- An oracle whose management calls reject the presented credentials
with 401 but whose identity check succeeds. -/
def envC1w : Env :=
  { getUser := fun _ _ _ _ => Except.error RErr.unauthorized
    putUser := fun _ _ _ _ _ => none
    updPerms := fun _ _ _ _ _ _ => none
    whoami := fun _ _ _ => none }

/-- A state whose Last-Applied record for account `u1` differs from the
desired `credC2w` only in the username. -/
def stC2w : PUState :=
  { adminClient := { username := "", password := "" }
    authClient := { username := "", password := "" }
    credentialState := [("u1", { username := "olduser", password := "p1", tag := "t1" })]
    credentialSpec := []
    adminFile := none }

/-- Desired credentials for `u1` changing only the username. -/
def credC2w : UserCredentials := { username := "newuser", password := "p1", tag := "t1" }

/-- An oracle rejecting every call, identity checks included, with 401:
neither old nor new credentials authenticate. -/
def envC3x : Env :=
  { getUser := fun _ _ _ _ => Except.error RErr.unauthorized
    putUser := fun _ _ _ _ _ => some RErr.unauthorized
    updPerms := fun _ _ _ _ _ _ => some RErr.unauthorized
    whoami := fun _ _ _ => some RErr.unauthorized }

/-- A state whose Last-Applied admin password is the old one, with the
acting client configured from it. -/
def stC3x : PUState :=
  { adminClient := { username := "admin", password := "oldpwd" }
    authClient := { username := "", password := "" }
    credentialState :=
      [("admin", { username := "admin", password := "oldpwd", tag := "administrator" })]
    credentialSpec := []
    adminFile := none }

/-- A directory rotating the admin password to `newpwd`. -/
def dirC3x : List (String × String) :=
  [("user_admin_username", "admin"), ("user_admin_password", "newpwd"),
   ("user_admin_tag", "administrator")]

/-- The desired admin credential of `dirC3x`. -/
def credC3x : UserCredentials :=
  { username := "admin", password := "newpwd", tag := "administrator" }

/-- An oracle failing the account fetch with an error that is neither
401 nor 404, so the apply step fails hard. -/
def envC4w : Env :=
  { getUser := fun _ _ _ _ => Except.error (RErr.other "boom")
    putUser := fun _ _ _ _ _ => none
    updPerms := fun _ _ _ _ _ _ => none
    whoami := fun _ _ _ => none }

/-- An oracle for which the account is new (404 on fetch) and the
upsert and permission grant succeed. -/
def envC4ok : Env :=
  { getUser := fun _ _ _ _ => Except.error RErr.notFound
    putUser := fun _ _ _ _ _ => none
    updPerms := fun _ _ _ _ _ _ => none
    whoami := fun _ _ _ => none }

/-- A state already holding the admin record. -/
def stC4w : PUState :=
  { adminClient := { username := "admin", password := "pw" }
    authClient := { username := "", password := "" }
    credentialState :=
      [("admin", { username := "admin", password := "pw", tag := "administrator" })]
    credentialSpec :=
      [("admin", { username := "admin", password := "pw", tag := "administrator" })]
    adminFile := none }

/-- A dirty non-admin credential. -/
def credC4w : UserCredentials := { username := "bob", password := "pb", tag := "tb" }

/-- A directory without any admin file: only the `default` account. -/
def dirC5x : List (String × String) :=
  [("user_default_username", "default"), ("user_default_password", "pwd1")]

/-- A directory holding an admin username but no admin password. -/
def dirC5w : List (String × String) := [("user_admin_username", "admin")]

/-- An oracle for which the fetched account does not exist and all
writes succeed. -/
def envC6w : Env :=
  { getUser := fun _ _ _ _ => Except.error RErr.notFound
    putUser := fun _ _ _ _ _ => none
    updPerms := fun _ _ _ _ _ _ => none
    whoami := fun _ _ _ => none }

/-- An oracle for which the fetched account exists with hashing
algorithm `algo7` and all writes succeed. -/
def envC6b : Env :=
  { getUser := fun _ _ _ _ =>
      Except.ok { name := "u", tags := ["t"], hashingAlgorithm := "algo7" }
    putUser := fun _ _ _ _ _ => none
    updPerms := fun _ _ _ _ _ _ => none
    whoami := fun _ _ _ => none }

/-- The client as configured before an apply. -/
def cC6w : ClientState := { username := "admin", password := "pw" }

/-- The credential being applied. -/
def credC6w : UserCredentials := { username := "newuser", password := "newpw", tag := "newtag" }

/-- A state dirty on the admin password, with the admin username
unchanged. -/
def stC7w : PUState :=
  { adminClient := { username := "admin", password := "oldpw" }
    authClient := { username := "", password := "" }
    credentialState :=
      [("admin", { username := "admin", password := "oldpw", tag := "administrator" })]
    credentialSpec :=
      [("admin", { username := "admin", password := "newpw", tag := "administrator" })]
    adminFile := none }

/-- The desired admin credential of `stC7w`. -/
def credC7w : UserCredentials :=
  { username := "admin", password := "newpw", tag := "administrator" }

/-- An admin file holding the old admin credentials plus an unrelated
section. -/
def fC8w : IniFile :=
  { sections := [("default", [("username", "admin"), ("password", "pwd1")]),
                 ("extra", [("k", "v")])] }

/-- The new admin credential to sync into `fC8w`. -/
def credC8w : UserCredentials :=
  { username := "admin", password := "pwd2", tag := "administrator" }

/-- The oracle of the rotation scenario: admin credentials
(`admin`/`pwd1`) are accepted, user `default` exists with hashing
algorithm `myalgo`, and writes succeed. -/
def envC9 : Env :=
  { getUser := fun _ u p target =>
      if u = "admin" ∧ p = "pwd1" ∧ target = "default" then
        Except.ok { name := "default", tags := ["mytag"], hashingAlgorithm := "myalgo" }
      else Except.error RErr.unauthorized
    putUser := fun _ u p _ _ =>
      if u = "admin" ∧ p = "pwd1" then none else some RErr.unauthorized
    updPerms := fun _ _ _ _ _ _ => none
    whoami := fun _ u p =>
      if u = "admin" ∧ p = "pwd1" then none else some RErr.unauthorized }

/-- Last-Applied State of the rotation scenario: both accounts at
`pwd1`. -/
def stC9 : PUState :=
  { adminClient := { username := "", password := "" }
    authClient := { username := "", password := "" }
    credentialState :=
      [("admin", { username := "admin", password := "pwd1", tag := "administrator" }),
       ("default", { username := "default", password := "pwd1", tag := "mytag" })]
    credentialSpec := []
    adminFile := none }

/-- The watched directory of the rotation scenario after
`user_default_password` changed to `pwd2`. -/
def dirC9 : List (String × String) :=
  [("user_admin_username", "admin"), ("user_admin_password", "pwd1"),
   ("user_admin_tag", "administrator"),
   ("user_default_username", "default"), ("user_default_password", "pwd2"),
   ("user_default_tag", "mytag")]


/-- The acting client before the C1 fallback scenario. -/
def cC1w : ClientState := { username := "admin", password := "oldpw" }

/-- The account being applied in the C1 fallback scenario. -/
def credC1w : UserCredentials := { username := "user1", password := "pw", tag := "tag1" }

/-- The freshly loaded Desired State of the C1 fallback scenario. -/
def specC1w : CredMap :=
  [("admin", { username := "admin", password := "newpw", tag := "administrator" })]

/-- An oracle whose identity checks always succeed and whose fetches
return 404. -/
def envC7w : Env :=
  { getUser := fun _ _ _ _ => Except.error RErr.notFound
    putUser := fun _ _ _ _ _ => none
    updPerms := fun _ _ _ _ _ _ => none
    whoami := fun _ _ _ => none }

/-- An oracle whose identity checks always fail 401. -/
def envC7x : Env :=
  { getUser := fun _ _ _ _ => Except.error RErr.notFound
    putUser := fun _ _ _ _ _ => none
    updPerms := fun _ _ _ _ _ _ => none
    whoami := fun _ _ _ => some RErr.unauthorized }

/-- A history-sensitive oracle: the first identity check succeeds and
every later one fails 401. -/
def envC7s : Env :=
  { getUser := fun _ _ _ _ => Except.error RErr.notFound
    putUser := fun _ _ _ _ _ => none
    updPerms := fun _ _ _ _ _ _ => none
    whoami := fun hist _ _ => if hist.length = 0 then none else some RErr.unauthorized }

/-- `stC7w` with the acting client authenticated as a different admin
username (`root`). -/
def stC7r : PUState :=
  { adminClient := { username := "root", password := "oldpw" }
    authClient := { username := "", password := "" }
    credentialState :=
      [("admin", { username := "admin", password := "oldpw", tag := "administrator" })]
    credentialSpec :=
      [("admin", { username := "admin", password := "newpw", tag := "administrator" })]
    adminFile := none }

/-! ### Helper lemmas -/

theorem alFind_alInsert_self {β : Type} (m : List (String × β)) (k : String) (v : β) :
    alFind (alInsert m k v) k = some v := by
  induction m with
  | nil => simp [alInsert, alFind]
  | cons p rest ih =>
    obtain ⟨k2, v2⟩ := p
    by_cases h : k2 = k
    · simp [alInsert, alFind, h]
    · simp [alInsert, alFind, h, ih]

theorem alFind_alInsert_ne {β : Type} (m : List (String × β)) (k k2 : String) (v : β)
    (h : k2 ≠ k) : alFind (alInsert m k v) k2 = alFind m k2 := by
  induction m with
  | nil =>
    simp only [alInsert, alFind]
    rw [if_neg (fun hc => h hc.symm)]
  | cons p rest ih =>
    obtain ⟨k3, v3⟩ := p
    by_cases h3 : k3 = k
    · subst h3
      simp only [alInsert, alFind, if_pos rfl]
      rw [if_neg (fun hc => h hc.symm), if_neg (fun hc => h hc.symm)]
    · simp [alInsert, alFind, h3, ih]

theorem iniGet_iniSet (cfg : IniFile) (s k v s2 k2 : String) :
    iniGet (iniSet cfg s k v) s2 k2 =
      if s2 = s ∧ k2 = k then v else iniGet cfg s2 k2 := by
  by_cases hs : s2 = s
  · subst hs
    by_cases hk : k2 = k
    · subst hk
      simp [iniGet, iniSet, alFind_alInsert_self]
    · simp [iniGet, iniSet, alFind_alInsert_self, alFind_alInsert_ne _ _ _ _ hk, hk]
  · simp [iniGet, iniSet, alFind_alInsert_ne _ _ _ _ hs, hs]

theorem validateSecrets_eq_none_iff (m : CredMap) :
    validateSecrets m = none ↔
      ∀ cred : UserCredentials, (adminUserID, cred) ∈ m →
        cred.username ≠ "" ∧ cred.password ≠ "" := by
  induction m with
  | nil => simp [validateSecrets]
  | cons p rest ih =>
    obtain ⟨uid, cred⟩ := p
    by_cases hinc : cred.username = "" ∨ cred.password = ""
    · by_cases hadm : uid = adminUserID
      · subst hadm
        simp only [validateSecrets, if_pos hinc, if_pos rfl]
        constructor
        · intro h; exact absurd h (by simp)
        · intro h
          rcases (h cred (by simp)) with ⟨h1, h2⟩
          rcases hinc with h3 | h3
          · exact absurd h3 h1
          · exact absurd h3 h2
      · simp only [validateSecrets, if_pos hinc, if_neg hadm, ih]
        constructor
        · intro h cred2 hmem
          rcases List.mem_cons.mp hmem with heq | hmem2
          · exact absurd (congrArg Prod.fst heq).symm hadm
          · exact h cred2 hmem2
        · intro h cred2 hmem
          exact h cred2 (List.mem_cons_of_mem _ hmem)
    · simp only [validateSecrets, if_neg hinc, ih]
      constructor
      · intro h cred2 hmem
        rcases List.mem_cons.mp hmem with heq | hmem2
        · have h1 : cred2 = cred := congrArg Prod.snd heq
          subst h1
          push_neg at hinc
          exact hinc
        · exact h cred2 hmem2
      · intro h cred2 hmem
        exact h cred2 (List.mem_cons_of_mem _ hmem)

theorem adminFileSync_fst (env : Env) (st : PUState) (tr : List CallEvent)
    (cred : UserCredentials) :
    (adminFileSync env st tr cred).fst =
      if checkAdminFile st.adminFile cred then st
      else { st with adminFile := some (updateAdminFile st.adminFile cred) } := rfl

theorem adminFileSync_snd (env : Env) (st : PUState) (tr : List CallEvent)
    (cred : UserCredentials) :
    (adminFileSync env st tr cred).snd =
      tr ++ [CallEvent.whoami st.adminClient.username st.adminClient.password
        (env.whoami tr st.adminClient.username st.adminClient.password)] := by
  simp only [adminFileSync, authenticate]
  split <;> rfl

theorem applyEntry_state_cases (env : Env) (st : PUState) (tr : List CallEvent)
    (userID : String) (creds : UserCredentials) :
    ((applyEntry env st tr userID creds).fst.credentialState = st.credentialState ∧
     (applyEntry env st tr userID creds).fst.credentialSpec = st.credentialSpec) ∨
    (∃ c1 tr1,
      updateInRabbitMQ env st.adminClient tr
        { username := creds.username, password := creds.password, tag := creds.tag }
        st.credentialSpec = (c1, tr1, none) ∧
      (applyEntry env st tr userID creds).fst.credentialState =
        alInsert st.credentialState userID
          { username := creds.username, password := creds.password, tag := creds.tag } ∧
      (applyEntry env st tr userID creds).fst.credentialSpec = st.credentialSpec) := by
  rcases h : updateInRabbitMQ env st.adminClient tr
      { username := creds.username, password := creds.password, tag := creds.tag }
      st.credentialSpec with ⟨c, tr2, r⟩
  cases r with
  | some e =>
    left
    simp [applyEntry, h]
  | none =>
    right
    refine ⟨c, tr2, rfl, ?_, ?_⟩ <;>
    · simp only [applyEntry, h]
      split
      · rw [adminFileSync_fst]
        split <;> simp
      · simp

/-- One iteration on a clean account is a pure skip. -/
theorem processEntry_clean (env : Env) (st : PUState) (tr : List CallEvent)
    (userID : String) (creds : UserCredentials)
    (h1 : credsUnchanged st.credentialState userID creds = true) :
    processEntry env st tr userID creds = (st, tr, StepRes.cont) := by
  simp [processEntry, h1]

/-- A dirty non-admin account goes straight to the apply step. -/
theorem processEntry_dirty_nonadmin (env : Env) (st : PUState) (tr : List CallEvent)
    (userID : String) (creds : UserCredentials)
    (h1 : credsUnchanged st.credentialState userID creds = false)
    (h2 : userID ≠ adminUserID) :
    processEntry env st tr userID creds = applyEntry env st tr userID creds := by
  simp [processEntry, h1, h2]

/-- A dirty admin account whose gate identity check fails aborts the
pass with an error, after exactly that one remote call. -/
theorem processEntry_admin_gate_fail (env : Env) (st : PUState) (tr : List CallEvent)
    (creds : UserCredentials) (e : RErr)
    (h1 : credsUnchanged st.credentialState adminUserID creds = false)
    (hw : env.whoami tr st.adminClient.username st.adminClient.password = some e) :
    processEntry env st tr adminUserID creds =
      (st, tr ++ [CallEvent.whoami st.adminClient.username st.adminClient.password (some e)],
       StepRes.halt (some ("failed to authenticate with current admin credentials: " ++ e.message))) := by
  simp [processEntry, h1, authenticate, hw]

/-- A dirty admin account with a successful gate check and an unchanged
admin username proceeds directly to the apply step. -/
theorem processEntry_admin_gate_ok_same (env : Env) (st : PUState) (tr : List CallEvent)
    (creds : UserCredentials)
    (h1 : credsUnchanged st.credentialState adminUserID creds = false)
    (hw : env.whoami tr st.adminClient.username st.adminClient.password = none)
    (hu : st.adminClient.username = creds.username) :
    processEntry env st tr adminUserID creds =
      applyEntry env st
        (tr ++ [CallEvent.whoami st.adminClient.username st.adminClient.password none])
        adminUserID creds := by
  rw [hu] at hw
  simp [processEntry, h1, authenticate, hw, hu]

/-- A dirty admin account with a changed admin username re-validates once
more; failure of that second check aborts the pass. -/
theorem processEntry_admin_gate_ok_rename_fail (env : Env) (st : PUState) (tr : List CallEvent)
    (creds : UserCredentials) (e : RErr)
    (h1 : credsUnchanged st.credentialState adminUserID creds = false)
    (hw : env.whoami tr st.adminClient.username st.adminClient.password = none)
    (hu : st.adminClient.username ≠ creds.username)
    (hw2 : env.whoami
        (tr ++ [CallEvent.whoami st.adminClient.username st.adminClient.password none])
        st.adminClient.username st.adminClient.password = some e) :
    processEntry env st tr adminUserID creds =
      (st, tr ++ [CallEvent.whoami st.adminClient.username st.adminClient.password none,
                  CallEvent.whoami st.adminClient.username st.adminClient.password (some e)],
       StepRes.halt (some ("failed to authenticate with current admin credentials: " ++ e.message))) := by
  simp [processEntry, h1, authenticate, hw, hu, hw2]

/-- A dirty admin account with a changed admin username and two
successful identity checks proceeds to the apply step. -/
theorem processEntry_admin_gate_ok_rename_ok (env : Env) (st : PUState) (tr : List CallEvent)
    (creds : UserCredentials)
    (h1 : credsUnchanged st.credentialState adminUserID creds = false)
    (hw : env.whoami tr st.adminClient.username st.adminClient.password = none)
    (hu : st.adminClient.username ≠ creds.username)
    (hw2 : env.whoami
        (tr ++ [CallEvent.whoami st.adminClient.username st.adminClient.password none])
        st.adminClient.username st.adminClient.password = none) :
    processEntry env st tr adminUserID creds =
      applyEntry env st
        (tr ++ [CallEvent.whoami st.adminClient.username st.adminClient.password none,
                CallEvent.whoami st.adminClient.username st.adminClient.password none])
        adminUserID creds := by
  simp [processEntry, h1, authenticate, hw, hu, hw2]

/-- Reduction of `handleHTTPError` on the 401 error: switch the client
password to `newPasswd` and report the identity-check outcome. -/
theorem handleHTTPError_unauthorized (env : Env) (c : ClientState) (tr : List CallEvent)
    (httpMethod pathUsers newPasswd : String) :
    handleHTTPError env c tr (some RErr.unauthorized) httpMethod pathUsers newPasswd =
      ({ c with password := newPasswd },
       tr ++ [CallEvent.whoami c.username newPasswd (env.whoami tr c.username newPasswd)],
       env.whoami tr c.username newPasswd) := by
  simp [handleHTTPError, authenticate, RErr.message]

theorem handleHTTPError_notFound_get (env : Env) (c : ClientState) (tr : List CallEvent)
    (pathUsers newPasswd : String) :
    handleHTTPError env c tr (some RErr.notFound) "GET" pathUsers newPasswd =
      (c, tr, some RErr.notFound) := by
  simp [handleHTTPError, RErr.message, errUnauthorized, errNotFound]

theorem handleHTTPError_trace_extends (env : Env) (c : ClientState) (tr : List CallEvent)
    (err : Option RErr) (httpMethod pathUsers newPasswd : String) :
    ∃ ext, (handleHTTPError env c tr err httpMethod pathUsers newPasswd).snd.fst = tr ++ ext := by
  cases err with
  | none => exact ⟨[], by simp [handleHTTPError]⟩
  | some e =>
    by_cases h1 : e.message = errUnauthorized
    · refine ⟨[CallEvent.whoami c.username newPasswd (env.whoami tr c.username newPasswd)], ?_⟩
      simp [handleHTTPError, h1, authenticate]
    · by_cases h2 : e.message = errNotFound ∧ httpMethod = "GET"
      · exact ⟨[], by simp [handleHTTPError, h1, h2, errUnauthorized, errNotFound]⟩
      · exact ⟨[], by simp [handleHTTPError, h1, h2]⟩

theorem putUserPhase_trace_extends (env : Env) (c : ClientState) (tr : List CallEvent)
    (cred : UserCredentials) (spec : CredMap) (pathUsers : String)
    (user : Option UserInfo) (isNewUser : Bool) :
    ∃ ext, (putUserPhase env c tr cred spec pathUsers user isNewUser).snd.fst = tr ++ ext := by
  set s : UserSettings :=
    { name := cred.username, tags := [cred.tag], password := cred.password,
      hashingAlgorithm :=
        match user with
        | some ui => ui.hashingAlgorithm
        | none => hashingAlgorithmSHA256 } with hs
  rcases hput : env.putUser tr c.username c.password cred.username s with _ | e
  · cases isNewUser with
    | false =>
      refine ⟨[CallEvent.putUser c.username c.password cred.username s none], ?_⟩
      simp only [putUserPhase, ← hs, hput]
      simp
    | true =>
      rcases hperm : env.updPerms (tr ++ [CallEvent.putUser c.username c.password cred.username s none])
          c.username c.password "/" cred.username defaultUserPermissions with _ | e2
      · refine ⟨[CallEvent.putUser c.username c.password cred.username s none,
          CallEvent.updPerms c.username c.password "/" cred.username defaultUserPermissions none], ?_⟩
        simp only [putUserPhase, ← hs, hput, hperm]
        simp
      · refine ⟨[CallEvent.putUser c.username c.password cred.username s none,
          CallEvent.updPerms c.username c.password "/" cred.username defaultUserPermissions (some e2)], ?_⟩
        simp only [putUserPhase, ← hs, hput, hperm]
        simp
  · rcases handleHTTPError_trace_extends env c
        (tr ++ [CallEvent.putUser c.username c.password cred.username s (some e)])
        (some e) "PUT" pathUsers (mapGet spec adminUserID).password with ⟨ext, hext⟩
    refine ⟨[CallEvent.putUser c.username c.password cred.username s (some e)] ++ ext, ?_⟩
    simp only [putUserPhase, ← hs, hput]
    rw [hext, List.append_assoc]


theorem processEntry_state_cases (env : Env) (st : PUState) (tr : List CallEvent)
    (userID : String) (creds : UserCredentials) :
    ((processEntry env st tr userID creds).fst.credentialState = st.credentialState ∧
     (processEntry env st tr userID creds).fst.credentialSpec = st.credentialSpec) ∨
    (∃ tr0 c1 tr1,
      updateInRabbitMQ env st.adminClient tr0
        { username := creds.username, password := creds.password, tag := creds.tag }
        st.credentialSpec = (c1, tr1, none) ∧
      (processEntry env st tr userID creds).fst.credentialState =
        alInsert st.credentialState userID
          { username := creds.username, password := creds.password, tag := creds.tag } ∧
      (processEntry env st tr userID creds).fst.credentialSpec = st.credentialSpec) := by
  have happ : ∀ tr0 : List CallEvent,
      processEntry env st tr userID creds = applyEntry env st tr0 userID creds →
      ((processEntry env st tr userID creds).fst.credentialState = st.credentialState ∧
       (processEntry env st tr userID creds).fst.credentialSpec = st.credentialSpec) ∨
      (∃ tr0 c1 tr1,
        updateInRabbitMQ env st.adminClient tr0
          { username := creds.username, password := creds.password, tag := creds.tag }
          st.credentialSpec = (c1, tr1, none) ∧
        (processEntry env st tr userID creds).fst.credentialState =
          alInsert st.credentialState userID
            { username := creds.username, password := creds.password, tag := creds.tag } ∧
        (processEntry env st tr userID creds).fst.credentialSpec = st.credentialSpec) := by
    intro tr0 heq
    rw [heq]
    rcases applyEntry_state_cases env st tr0 userID creds with ⟨h1, h2⟩ | ⟨c1, tr1, h1, h2, h3⟩
    · left; exact ⟨h1, h2⟩
    · right; exact ⟨tr0, c1, tr1, h1, h2, h3⟩
  cases hb : credsUnchanged st.credentialState userID creds with
  | true =>
    left
    rw [processEntry_clean env st tr userID creds hb]
    exact ⟨rfl, rfl⟩
  | false =>
    by_cases hadm : userID = adminUserID
    · subst hadm
      rcases hw : env.whoami tr st.adminClient.username st.adminClient.password with _ | e
      · by_cases hu : st.adminClient.username = creds.username
        · exact happ _ (processEntry_admin_gate_ok_same env st tr creds hb hw hu)
        · rcases hw2 : env.whoami
              (tr ++ [CallEvent.whoami st.adminClient.username st.adminClient.password none])
              st.adminClient.username st.adminClient.password with _ | e2
          · exact happ _ (processEntry_admin_gate_ok_rename_ok env st tr creds hb hw hu hw2)
          · left
            rw [processEntry_admin_gate_ok_rename_fail env st tr creds e2 hb hw hu hw2]
            exact ⟨rfl, rfl⟩
      · left
        rw [processEntry_admin_gate_fail env st tr creds e hb hw]
        exact ⟨rfl, rfl⟩
    · exact happ tr (processEntry_dirty_nonadmin env st tr userID creds hb hadm)

/-- Every `processEntry` outcome is either the unchanged state (skip or
abort) or an `applyEntry` outcome at some extended trace. -/
theorem processEntry_shape (env : Env) (st : PUState) (tr : List CallEvent)
    (userID : String) (creds : UserCredentials) :
    (processEntry env st tr userID creds).fst = st ∨
    (∃ tr0, processEntry env st tr userID creds = applyEntry env st tr0 userID creds) := by
  cases hb : credsUnchanged st.credentialState userID creds with
  | true =>
    left
    rw [processEntry_clean env st tr userID creds hb]
  | false =>
    by_cases hadm : userID = adminUserID
    · subst hadm
      rcases hw : env.whoami tr st.adminClient.username st.adminClient.password with _ | e
      · by_cases hu : st.adminClient.username = creds.username
        · exact Or.inr ⟨_, processEntry_admin_gate_ok_same env st tr creds hb hw hu⟩
        · rcases hw2 : env.whoami
              (tr ++ [CallEvent.whoami st.adminClient.username st.adminClient.password none])
              st.adminClient.username st.adminClient.password with _ | e2
          · exact Or.inr ⟨_, processEntry_admin_gate_ok_rename_ok env st tr creds hb hw hu hw2⟩
          · left
            rw [processEntry_admin_gate_ok_rename_fail env st tr creds e2 hb hw hu hw2]
      · left
        rw [processEntry_admin_gate_fail env st tr creds e hb hw]
    · exact Or.inr ⟨tr, processEntry_dirty_nonadmin env st tr userID creds hb hadm⟩

theorem applyEntry_authClient (env : Env) (st : PUState) (tr : List CallEvent)
    (userID : String) (creds : UserCredentials) :
    (applyEntry env st tr userID creds).fst.authClient = st.authClient := by
  rcases h : updateInRabbitMQ env st.adminClient tr
      { username := creds.username, password := creds.password, tag := creds.tag }
      st.credentialSpec with ⟨c, tr2, r⟩
  cases r with
  | some e => simp [applyEntry, h]
  | none =>
    simp only [applyEntry, h]
    split
    · rw [adminFileSync_fst]
      split <;> simp
    · simp

theorem processEntry_authClient (env : Env) (st : PUState) (tr : List CallEvent)
    (userID : String) (creds : UserCredentials) :
    (processEntry env st tr userID creds).fst.authClient = st.authClient := by
  rcases processEntry_shape env st tr userID creds with h | ⟨tr0, h⟩
  · rw [h]
  · rw [h]
    exact applyEntry_authClient env st tr0 userID creds

theorem processLoop_authClient (env : Env) (st : PUState) (tr : List CallEvent)
    (entries : List (String × UserCredentials)) :
    (processLoop env st tr entries).fst.authClient = st.authClient := by
  induction entries generalizing st tr with
  | nil => rfl
  | cons p rest ih =>
    obtain ⟨userID, creds⟩ := p
    have hpe := processEntry_authClient env st tr userID creds
    rcases h : processEntry env st tr userID creds with ⟨st2, tr2, out⟩
    rw [h] at hpe
    cases out with
    | cont =>
      simp only [processLoop, h]
      rw [ih st2 tr2]
      exact hpe
    | halt e =>
      simp only [processLoop, h]
      exact hpe

/-- If validation rejects the assembled map, some admin record in it
misses a username or password. -/
theorem validateSecrets_some_mem (m : CredMap) (e : String)
    (h : validateSecrets m = some e) :
    ∃ cred, (adminUserID, cred) ∈ m ∧ (cred.username = "" ∨ cred.password = "") := by
  by_contra hno
  push_neg at hno
  rw [(validateSecrets_eq_none_iff m).mpr hno] at h
  exact Option.noConfusion h

/-- If some admin record in the map misses a username or password,
validation rejects the map. -/
theorem validateSecrets_ne_none (m : CredMap) (cred : UserCredentials)
    (hmem : (adminUserID, cred) ∈ m)
    (hinc : cred.username = "" ∨ cred.password = "") :
    ∃ e, validateSecrets m = some e := by
  rcases hv : validateSecrets m with _ | e
  · rcases ((validateSecrets_eq_none_iff m).mp hv cred hmem) with ⟨h1, h2⟩
    rcases hinc with h3 | h3
    · exact absurd h3 h1
    · exact absurd h3 h2
  · exact ⟨e, rfl⟩

/-! ### Claims -/

/-- C2: an account present in both Desired State and Last-Applied State
with matching password and tag is skipped by the reconciliation loop:
its iteration performs no remote call and changes nothing, regardless
of its username; the loop simply moves on to the remaining accounts. -/
theorem C2_unchanged_account_no_calls :
    (∀ (env : Env) (st : PUState) (tr : List CallEvent) (userID : String)
        (creds sc : UserCredentials),
      alFind st.credentialState userID = some sc →
      sc.password = creds.password →
      sc.tag = creds.tag →
      processEntry env st tr userID creds = (st, tr, StepRes.cont)) ∧
    (∀ (env : Env) (st : PUState) (tr : List CallEvent) (userID : String)
        (creds sc : UserCredentials) (rest : List (String × UserCredentials)),
      alFind st.credentialState userID = some sc →
      sc.password = creds.password →
      sc.tag = creds.tag →
      processLoop env st tr ((userID, creds) :: rest) = processLoop env st tr rest) := by
  have hcu : ∀ (st : PUState) (userID : String) (creds sc : UserCredentials),
      alFind st.credentialState userID = some sc →
      sc.password = creds.password → sc.tag = creds.tag →
      credsUnchanged st.credentialState userID creds = true := by
    intro st userID creds sc hfind hp ht
    simp [credsUnchanged, hfind, hp, ht]
  refine ⟨?_, ?_⟩
  · intro env st tr userID creds sc hfind hp ht
    exact processEntry_clean env st tr userID creds (hcu st userID creds sc hfind hp ht)
  · intro env st tr userID creds sc rest hfind hp ht
    simp only [processLoop,
      processEntry_clean env st tr userID creds (hcu st userID creds sc hfind hp ht)]

/-- Witness for C2 at a concrete username-only change: account `u1`
keeps password `p1` and tag `t1` but renames `olduser` to `newuser`; the
iteration is a pure skip and the pass issues no call. -/
theorem C2_unchanged_account_no_calls_witness :
    alFind stC2w.credentialState "u1" =
      some { username := "olduser", password := "p1", tag := "t1" } ∧
    processEntry envNull stC2w [] "u1" credC2w = (stC2w, [], StepRes.cont) ∧
    processLoop envNull stC2w [] [("u1", credC2w)] = (stC2w, [], none) := by
  refine ⟨by decide, ?_, ?_⟩
  · exact C2_unchanged_account_no_calls.1 envNull stC2w [] "u1" credC2w
      { username := "olduser", password := "p1", tag := "t1" } (by decide) (by decide) (by decide)
  · rw [C2_unchanged_account_no_calls.2 envNull stC2w [] "u1" credC2w
      { username := "olduser", password := "p1", tag := "t1" } [] (by decide) (by decide) (by decide)]
    rfl

/-- C3 counterexample: with the admin account dirty and every identity
check failing 401 under either password, the pass issues zero upsert
attempts and aborts with an authentication error — not the one
optimistic upsert the claim asserts. -/
theorem C3_counterexample :
    ((processSecrets envC3x stC3x dirC3x).snd.fst.filter isPutUserEvent) = [] ∧
    (processSecrets envC3x stC3x dirC3x).snd.fst =
      [CallEvent.whoami "admin" "oldpwd" (some RErr.unauthorized)] ∧
    (processSecrets envC3x stC3x dirC3x).snd.snd =
      some ("failed to authenticate with current admin credentials: " ++ errUnauthorized) := by
  decide

/-- C3 amended: if the admin account is dirty and every identity check
fails 401 (neither old nor new credentials authenticate), the pass
performs no upsert attempt at all: it aborts with an authentication
error right after the single gate identity check. -/
theorem C3_dual_invalidity_no_upsert :
    ∀ (env : Env) (st : PUState) (tr : List CallEvent) (creds : UserCredentials),
      credsUnchanged st.credentialState adminUserID creds = false →
      (∀ (hist : List CallEvent) (u p : String), env.whoami hist u p = some RErr.unauthorized) →
      processEntry env st tr adminUserID creds =
        (st, tr ++ [CallEvent.whoami st.adminClient.username st.adminClient.password
            (some RErr.unauthorized)],
         StepRes.halt (some ("failed to authenticate with current admin credentials: " ++
           errUnauthorized))) ∧
      ((processEntry env st tr adminUserID creds).snd.fst.filter isPutUserEvent) =
        tr.filter isPutUserEvent := by
  intro env st tr creds h1 hw
  have heq := processEntry_admin_gate_fail env st tr creds RErr.unauthorized h1
    (hw tr st.adminClient.username st.adminClient.password)
  refine ⟨heq, ?_⟩
  rw [heq]
  simp [isPutUserEvent]

/-- Witness for C3 amended at the concrete dual-invalidity scenario. -/
theorem C3_dual_invalidity_no_upsert_witness :
    processEntry envC3x stC3x [] adminUserID credC3x =
      (stC3x, [CallEvent.whoami "admin" "oldpwd" (some RErr.unauthorized)],
       StepRes.halt (some ("failed to authenticate with current admin credentials: " ++
         errUnauthorized))) ∧
    ((processEntry envC3x stC3x [] adminUserID credC3x).snd.fst.filter isPutUserEvent) = [] := by
  have h := C3_dual_invalidity_no_upsert envC3x stC3x [] credC3x (by decide) (fun _ _ _ => rfl)
  exact ⟨h.1, h.2⟩

/-- C5 counterexample: a directory with no admin file at all loads
successfully — the admin entry is absent from the assembled map and no
ConfigError is raised, contradicting the claim that absence is an
error. -/
theorem C5_counterexample :
    alFind (loadSecretsLoop dirC5x []) adminUserID = none ∧
    loadSecrets dirC5x =
      Except.ok [("default", { username := "default", password := "pwd1", tag := "" })] := by
  decide

/-- C5 amended: the loader fails with a ConfigError exactly when the
assembled map holds an admin entry with an empty username or password;
an absent admin entry, and incomplete non-admin entries, load
successfully with the partial records returned. -/
theorem C5_admin_completeness :
    (∀ (dir : List (String × String)) (e : String),
      loadSecrets dir = Except.error e →
      ∃ cred, (adminUserID, cred) ∈ loadSecretsLoop dir [] ∧
        (cred.username = "" ∨ cred.password = "")) ∧
    (∀ dir : List (String × String),
      (∀ cred : UserCredentials, (adminUserID, cred) ∈ loadSecretsLoop dir [] →
        cred.username ≠ "" ∧ cred.password ≠ "") →
      loadSecrets dir = Except.ok (loadSecretsLoop dir [])) ∧
    (∀ (dir : List (String × String)) (cred : UserCredentials),
      (adminUserID, cred) ∈ loadSecretsLoop dir [] →
      cred.username = "" ∨ cred.password = "" →
      ∃ e, loadSecrets dir = Except.error e) := by
  refine ⟨?_, ?_, ?_⟩
  · intro dir e h
    simp only [loadSecrets] at h
    rcases hv : validateSecrets (loadSecretsLoop dir []) with _ | e2
    · rw [hv] at h
      exact absurd h (by simp)
    · exact validateSecrets_some_mem _ e2 hv
  · intro dir hall
    simp only [loadSecrets]
    rw [(validateSecrets_eq_none_iff _).mpr hall]
  · intro dir cred hmem hinc
    rcases validateSecrets_ne_none _ cred hmem hinc with ⟨e, he⟩
    exact ⟨e, by simp only [loadSecrets, he]⟩

/-- Witness for C5 amended: an admin entry missing its password fails
the load, while the admin-less directory loads successfully. -/
theorem C5_admin_completeness_witness :
    (∃ e, loadSecrets dirC5w = Except.error e) ∧
    loadSecrets dirC5x = Except.ok (loadSecretsLoop dirC5x []) := by
  constructor
  · exact C5_admin_completeness.2.2 dirC5w
      { username := "admin", password := "", tag := "" } (by decide) (by decide)
  · refine C5_admin_completeness.2.1 dirC5x ?_
    intro cred hmem
    have hcomp : loadSecretsLoop dirC5x [] =
        [("default", { username := "default", password := "pwd1", tag := "" })] := by decide
    rw [hcomp] at hmem
    simp [adminUserID] at hmem

/-- C9: in the concrete rotation scenario (admin credentials still
valid, user `default` exists remotely with hashing algorithm `myalgo`,
desired password changed to `pwd2`), the pass performs one fetch and
exactly one upsert with Name `default`, Tags `[mytag]`, Password
`pwd2`, and the fetched hashing algorithm unchanged; the pass ends
without error. -/
theorem C9_default_rotation_single_upsert :
    (processSecrets envC9 stC9 dirC9).snd.fst =
      [CallEvent.getUser "admin" "pwd1" "default" none,
       CallEvent.putUser "admin" "pwd1" "default"
         { name := "default", tags := ["mytag"], password := "pwd2",
           hashingAlgorithm := "myalgo" } none] ∧
    ((processSecrets envC9 stC9 dirC9).snd.fst.filter isPutUserEvent).length = 1 ∧
    (processSecrets envC9 stC9 dirC9).snd.snd = none := by
  decide

/-- C10: no part of a reconciliation pass touches the second client
instance: the `authClient` field is unchanged by every loop iteration,
by the whole loop, and by `processSecrets`; all recorded calls are made
with the acting admin client's credentials by construction. -/
theorem C10_authClient_never_used :
    (∀ (env : Env) (st : PUState) (tr : List CallEvent) (userID : String)
        (creds : UserCredentials),
      (processEntry env st tr userID creds).fst.authClient = st.authClient) ∧
    (∀ (env : Env) (st : PUState) (tr : List CallEvent)
        (entries : List (String × UserCredentials)),
      (processLoop env st tr entries).fst.authClient = st.authClient) ∧
    (∀ (env : Env) (st : PUState) (dir : List (String × String)),
      (processSecrets env st dir).fst.authClient = st.authClient) := by
  refine ⟨processEntry_authClient, processLoop_authClient, ?_⟩
  intro env st dir
  simp only [processSecrets]
  rcases h : loadSecrets dir with e | spec
  · rfl
  · rw [processLoop_authClient]

/-- C1: on a 401 from a management call, `handleHTTPError` switches the
acting client's in-memory password to the new password, performs one
`Whoami` identity check with it, returns nil exactly when that check
succeeds, and returns the identity-check failure otherwise; at the
fetch call site of an apply, the new password passed in is the desired
admin password of the freshly loaded spec. -/
theorem C1_auth_fallback_on_unauthorized :
    (∀ (env : Env) (c : ClientState) (tr : List CallEvent)
        (httpMethod pathUsers newPasswd : String),
      handleHTTPError env c tr (some RErr.unauthorized) httpMethod pathUsers newPasswd =
        ({ c with password := newPasswd },
         tr ++ [CallEvent.whoami c.username newPasswd (env.whoami tr c.username newPasswd)],
         env.whoami tr c.username newPasswd)) ∧
    (∀ (env : Env) (c : ClientState) (tr : List CallEvent)
        (httpMethod pathUsers newPasswd : String),
      ((handleHTTPError env c tr (some RErr.unauthorized) httpMethod pathUsers newPasswd).snd.snd
          = none ↔ env.whoami tr c.username newPasswd = none) ∧
      (∀ e : RErr, env.whoami tr c.username newPasswd = some e →
        (handleHTTPError env c tr (some RErr.unauthorized) httpMethod pathUsers newPasswd).snd.snd
          = some e)) ∧
    (∀ (env : Env) (c : ClientState) (tr : List CallEvent) (cred : UserCredentials)
        (spec : CredMap),
      env.getUser tr c.username c.password cred.username = Except.error RErr.unauthorized →
      ∃ rest,
        (updateInRabbitMQ env c tr cred spec).snd.fst =
          tr ++ [CallEvent.getUser c.username c.password cred.username (some RErr.unauthorized),
                 CallEvent.whoami c.username (mapGet spec adminUserID).password
                   (env.whoami
                     (tr ++ [CallEvent.getUser c.username c.password cred.username
                       (some RErr.unauthorized)])
                     c.username (mapGet spec adminUserID).password)] ++ rest) := by
  refine ⟨handleHTTPError_unauthorized, ?_, ?_⟩
  · intro env c tr httpMethod pathUsers newPasswd
    rw [handleHTTPError_unauthorized]
    constructor
    · constructor
      · intro h; exact h
      · intro h; exact h
    · intro e he; exact he
  · intro env c tr cred spec hget
    simp only [updateInRabbitMQ, hget]
    rw [handleHTTPError_unauthorized]
    rcases hw : env.whoami
        (tr ++ [CallEvent.getUser c.username c.password cred.username (some RErr.unauthorized)])
        c.username (mapGet spec adminUserID).password with _ | e
    · rcases putUserPhase_trace_extends env { c with password := (mapGet spec adminUserID).password }
          ((tr ++ [CallEvent.getUser c.username c.password cred.username (some RErr.unauthorized)]) ++
            [CallEvent.whoami c.username (mapGet spec adminUserID).password none])
          cred spec ("/api/users/" ++ cred.username) none false with ⟨ext, hext⟩
      refine ⟨ext, ?_⟩
      simp only [hw]
      rw [hext]
      simp [List.append_assoc]
    · by_cases hm : e.message = errNotFound
      · rcases putUserPhase_trace_extends env { c with password := (mapGet spec adminUserID).password }
            ((tr ++ [CallEvent.getUser c.username c.password cred.username (some RErr.unauthorized)]) ++
              [CallEvent.whoami c.username (mapGet spec adminUserID).password (some e)])
            cred spec ("/api/users/" ++ cred.username) none true with ⟨ext, hext⟩
        refine ⟨ext, ?_⟩
        simp only [hw, hm, eq_self_iff_true, if_true]
        rw [hext]
        simp [List.append_assoc]
      · refine ⟨[], ?_⟩
        simp only [hw, hm]
        simp [List.append_assoc]

/-- Witness for C1 at concrete scenarios: the fallback succeeds with
the new password from the spec, and a failing identity check surfaces
its 401. -/
theorem C1_auth_fallback_on_unauthorized_witness :
    (handleHTTPError envC1w cC1w [] (some RErr.unauthorized) "GET" "/api/users/user1" "newpw" =
      ({ cC1w with password := "newpw" }, [CallEvent.whoami "admin" "newpw" none], none)) ∧
    ((handleHTTPError envC3x cC1w [] (some RErr.unauthorized) "GET" "/api/users/user1"
        "newpw").snd.snd = some RErr.unauthorized) ∧
    (∃ rest,
      (updateInRabbitMQ envC1w cC1w [] credC1w specC1w).snd.fst =
        [] ++ [CallEvent.getUser "admin" "oldpw" "user1" (some RErr.unauthorized),
               CallEvent.whoami "admin" "newpw" none] ++ rest) := by
  refine ⟨?_, ?_, ?_⟩
  · exact C1_auth_fallback_on_unauthorized.1 envC1w cC1w [] "GET" "/api/users/user1" "newpw"
  · exact (C1_auth_fallback_on_unauthorized.2.1 envC3x cC1w [] "GET" "/api/users/user1"
      "newpw").2 RErr.unauthorized rfl
  · exact C1_auth_fallback_on_unauthorized.2.2 envC1w cC1w [] credC1w specC1w rfl

/-- C4: (1) when the remote apply of an account fails, the loop body
breaks with no process-terminating error and Last-Applied State is left
exactly as it was — the accounts committed earlier in the pass and
nothing else; (2) a halting iteration ends the loop, so no further
dirty account is attempted; (3) any change of Last-Applied State at
some account id stems from an entry of the processed Desired State
whose remote apply returned success, and records exactly that entry's
credential. -/
theorem C4_partial_failure_containment :
    (∀ (env : Env) (st : PUState) (tr : List CallEvent) (userID : String)
        (creds : UserCredentials) (c2 : ClientState) (tr2 : List CallEvent) (e : RErr),
      updateInRabbitMQ env st.adminClient tr
        { username := creds.username, password := creds.password, tag := creds.tag }
        st.credentialSpec = (c2, tr2, some e) →
      applyEntry env st tr userID creds = ({ st with adminClient := c2 }, tr2, StepRes.halt none)) ∧
    (∀ (env : Env) (st : PUState) (tr : List CallEvent) (userID : String)
        (creds : UserCredentials) (rest : List (String × UserCredentials))
        (st2 : PUState) (tr2 : List CallEvent) (r : Option String),
      processEntry env st tr userID creds = (st2, tr2, StepRes.halt r) →
      processLoop env st tr ((userID, creds) :: rest) = (st2, tr2, r)) ∧
    (∀ (env : Env) (st : PUState) (tr : List CallEvent)
        (entries : List (String × UserCredentials)) (userID : String),
      alFind (processLoop env st tr entries).fst.credentialState userID ≠
        alFind st.credentialState userID →
      ∃ creds c0 tr0 c1 tr1,
        (userID, creds) ∈ entries ∧
        alFind (processLoop env st tr entries).fst.credentialState userID =
          some { username := creds.username, password := creds.password, tag := creds.tag } ∧
        updateInRabbitMQ env c0 tr0
          { username := creds.username, password := creds.password, tag := creds.tag }
          st.credentialSpec = (c1, tr1, none)) := by
  refine ⟨?_, ?_, ?_⟩
  · intro env st tr userID creds c2 tr2 e h
    simp only [applyEntry, h]
  · intro env st tr userID creds rest st2 tr2 r h
    simp only [processLoop, h]
  · intro env st tr entries
    induction entries generalizing st tr with
    | nil =>
      intro userID h
      exact absurd rfl h
    | cons p rest ih =>
      obtain ⟨uid2, creds2⟩ := p
      intro userID hne
      rcases hpe : processEntry env st tr uid2 creds2 with ⟨st2, tr2, out⟩
      have hcases := processEntry_state_cases env st tr uid2 creds2
      rw [hpe] at hcases
      cases out with
      | halt e =>
        simp only [processLoop, hpe] at hne ⊢
        rcases hcases with ⟨h1, h2⟩ | ⟨tr0, c1, tr1, h1, h2, h3⟩
        · exact absurd (by rw [h1]) hne
        · by_cases huid : uid2 = userID
          · subst huid
            refine ⟨creds2, st.adminClient, tr0, c1, tr1, List.mem_cons_self _ _, ?_, h1⟩
            rw [h2, alFind_alInsert_self]
          · exfalso
            apply hne
            rw [h2, alFind_alInsert_ne _ _ _ _ (fun hc => huid hc.symm)]
      | cont =>
        simp only [processLoop, hpe] at hne ⊢
        by_cases hsame : alFind (processLoop env st2 tr2 rest).fst.credentialState userID =
            alFind st2.credentialState userID
        · rcases hcases with ⟨h1, h2⟩ | ⟨tr0, c1, tr1, h1, h2, h3⟩
          · exfalso
            apply hne
            rw [hsame, h1]
          · by_cases huid : uid2 = userID
            · subst huid
              refine ⟨creds2, st.adminClient, tr0, c1, tr1, List.mem_cons_self _ _, ?_, h1⟩
              rw [hsame, h2, alFind_alInsert_self]
            · exfalso
              apply hne
              rw [hsame, h2, alFind_alInsert_ne _ _ _ _ (fun hc => huid hc.symm)]
        · have hspec : st2.credentialSpec = st.credentialSpec := by
            rcases hcases with ⟨_, h2⟩ | ⟨_, _, _, _, _, h3⟩
            exacts [h2, h3]
          rcases ih st2 tr2 userID hsame with ⟨creds3, c0, tr0, c1, tr1, hmem, hfind, hupd⟩
          rw [hspec] at hupd
          exact ⟨creds3, c0, tr0, c1, tr1, List.mem_cons_of_mem _ hmem, hfind, hupd⟩

/-- Witness for C4 at concrete scenarios: a hard fetch failure makes
the loop break without error and without committing, and a successful
apply is the only way a record enters Last-Applied State. -/
theorem C4_partial_failure_containment_witness :
    applyEntry envC4w stC4w [] "bob" credC4w =
      (stC4w, [CallEvent.getUser "admin" "pw" "bob" (some (RErr.other "boom"))],
       StepRes.halt none) ∧
    processLoop envC4w stC4w [] [("bob", credC4w)] =
      (stC4w, [CallEvent.getUser "admin" "pw" "bob" (some (RErr.other "boom"))], none) ∧
    (∃ creds c0 tr0 c1 tr1,
      ("bob", creds) ∈ [("bob", credC4w)] ∧
      alFind (processLoop envC4ok stC4w [] [("bob", credC4w)]).fst.credentialState "bob" =
        some { username := creds.username, password := creds.password, tag := creds.tag } ∧
      updateInRabbitMQ envC4ok c0 tr0
        { username := creds.username, password := creds.password, tag := creds.tag }
        stC4w.credentialSpec = (c1, tr1, none)) := by
  refine ⟨?_, ?_, ?_⟩
  · exact C4_partial_failure_containment.1 envC4w stC4w [] "bob" credC4w stC4w.adminClient
      [CallEvent.getUser "admin" "pw" "bob" (some (RErr.other "boom"))]
      (RErr.other "boom") (by decide)
  · exact C4_partial_failure_containment.2.1 envC4w stC4w [] "bob" credC4w [] stC4w
      [CallEvent.getUser "admin" "pw" "bob" (some (RErr.other "boom"))] none (by decide)
  · exact C4_partial_failure_containment.2.2 envC4ok stC4w [] [("bob", credC4w)] "bob" (by decide)

/-- C6: when the fetch returns 404 the engine creates the account: it
upserts with the fixed SHA-256 hashing scheme and, after the upsert
succeeds, issues exactly one permission grant of `.*`/`.*`/`.*` on
vhost `/`; when the fetch succeeds the upsert reuses the fetched
account's hashing algorithm and no permission grant occurs. -/
theorem C6_create_vs_update :
    (∀ (env : Env) (c : ClientState) (tr : List CallEvent) (cred : UserCredentials)
        (spec : CredMap),
      env.getUser tr c.username c.password cred.username = Except.error RErr.notFound →
      env.putUser
          (tr ++ [CallEvent.getUser c.username c.password cred.username (some RErr.notFound)])
          c.username c.password cred.username
          { name := cred.username, tags := [cred.tag], password := cred.password,
            hashingAlgorithm := hashingAlgorithmSHA256 } = none →
      updateInRabbitMQ env c tr cred spec =
        (c, tr ++ [CallEvent.getUser c.username c.password cred.username (some RErr.notFound),
                   CallEvent.putUser c.username c.password cred.username
                     { name := cred.username, tags := [cred.tag], password := cred.password,
                       hashingAlgorithm := hashingAlgorithmSHA256 } none,
                   CallEvent.updPerms c.username c.password "/" cred.username
                     defaultUserPermissions
                     (env.updPerms
                       (tr ++ [CallEvent.getUser c.username c.password cred.username
                                 (some RErr.notFound),
                               CallEvent.putUser c.username c.password cred.username
                                 { name := cred.username, tags := [cred.tag],
                                   password := cred.password,
                                   hashingAlgorithm := hashingAlgorithmSHA256 } none])
                       c.username c.password "/" cred.username defaultUserPermissions)],
         match env.updPerms
             (tr ++ [CallEvent.getUser c.username c.password cred.username (some RErr.notFound),
                     CallEvent.putUser c.username c.password cred.username
                       { name := cred.username, tags := [cred.tag], password := cred.password,
                         hashingAlgorithm := hashingAlgorithmSHA256 } none])
             c.username c.password "/" cred.username defaultUserPermissions with
         | none => none
         | some e =>
           some (RErr.other ("failed to update permissions on RabbitMQ server: " ++ e.message)))) ∧
    (∀ (env : Env) (c : ClientState) (tr : List CallEvent) (cred : UserCredentials)
        (spec : CredMap) (ui : UserInfo),
      env.getUser tr c.username c.password cred.username = Except.ok ui →
      env.putUser (tr ++ [CallEvent.getUser c.username c.password cred.username none])
          c.username c.password cred.username
          { name := cred.username, tags := [cred.tag], password := cred.password,
            hashingAlgorithm := ui.hashingAlgorithm } = none →
      updateInRabbitMQ env c tr cred spec =
        (c, tr ++ [CallEvent.getUser c.username c.password cred.username none,
                   CallEvent.putUser c.username c.password cred.username
                     { name := cred.username, tags := [cred.tag], password := cred.password,
                       hashingAlgorithm := ui.hashingAlgorithm } none], none)) := by
  constructor
  · intro env c tr cred spec hget hput
    simp only [updateInRabbitMQ, hget]
    rw [handleHTTPError_notFound_get]
    simp only [RErr.message, eq_self_iff_true, if_true]
    simp only [putUserPhase, hput]
    rcases hperm : env.updPerms
        (tr ++ [CallEvent.getUser c.username c.password cred.username (some RErr.notFound),
                CallEvent.putUser c.username c.password cred.username
                  { name := cred.username, tags := [cred.tag], password := cred.password,
                    hashingAlgorithm := hashingAlgorithmSHA256 } none])
        c.username c.password "/" cred.username defaultUserPermissions with _ | e
    · simp [hperm, List.append_assoc]
    · simp [hperm, List.append_assoc]
      rfl
  · intro env c tr cred spec ui hget hput
    simp only [updateInRabbitMQ, hget, handleHTTPError]
    simp only [putUserPhase, hput]
    simp [List.append_assoc]

/-- Witness for C6 at concrete scenarios: a 404 fetch leads to upsert
with SHA-256 and one permission grant; a successful fetch leads to an
upsert reusing `algo7` and no grant. -/
theorem C6_create_vs_update_witness :
    updateInRabbitMQ envC6w cC6w [] credC6w [] =
      (cC6w, [CallEvent.getUser "admin" "pw" "newuser" (some RErr.notFound),
              CallEvent.putUser "admin" "pw" "newuser"
                { name := "newuser", tags := ["newtag"], password := "newpw",
                  hashingAlgorithm := hashingAlgorithmSHA256 } none,
              CallEvent.updPerms "admin" "pw" "/" "newuser" defaultUserPermissions none],
       none) ∧
    updateInRabbitMQ envC6b cC6w [] credC6w [] =
      (cC6w, [CallEvent.getUser "admin" "pw" "newuser" none,
              CallEvent.putUser "admin" "pw" "newuser"
                { name := "newuser", tags := ["newtag"], password := "newpw",
                  hashingAlgorithm := "algo7" } none], none) := by
  constructor
  · exact C6_create_vs_update.1 envC6w cC6w [] credC6w [] rfl rfl
  · exact C6_create_vs_update.2 envC6b cC6w [] credC6w []
      { name := "u", tags := ["t"], hashingAlgorithm := "algo7" } rfl rfl

/-- C7: for a dirty admin account, the loop body first performs a
`Whoami` identity check with the currently configured credentials;
failure aborts the pass with an error and no upsert; on success with an
unchanged admin username the apply starts immediately after that one
check, and with a changed username exactly one additional check runs
first, whose failure likewise aborts with no upsert. -/
theorem C7_admin_gate_before_upsert :
    (∀ (env : Env) (st : PUState) (tr : List CallEvent) (creds : UserCredentials) (e : RErr),
      credsUnchanged st.credentialState adminUserID creds = false →
      env.whoami tr st.adminClient.username st.adminClient.password = some e →
      processEntry env st tr adminUserID creds =
        (st, tr ++ [CallEvent.whoami st.adminClient.username st.adminClient.password (some e)],
         StepRes.halt
           (some ("failed to authenticate with current admin credentials: " ++ e.message)))) ∧
    (∀ (env : Env) (st : PUState) (tr : List CallEvent) (creds : UserCredentials),
      credsUnchanged st.credentialState adminUserID creds = false →
      env.whoami tr st.adminClient.username st.adminClient.password = none →
      st.adminClient.username = creds.username →
      processEntry env st tr adminUserID creds =
        applyEntry env st
          (tr ++ [CallEvent.whoami st.adminClient.username st.adminClient.password none])
          adminUserID creds) ∧
    (∀ (env : Env) (st : PUState) (tr : List CallEvent) (creds : UserCredentials) (e : RErr),
      credsUnchanged st.credentialState adminUserID creds = false →
      env.whoami tr st.adminClient.username st.adminClient.password = none →
      st.adminClient.username ≠ creds.username →
      env.whoami
          (tr ++ [CallEvent.whoami st.adminClient.username st.adminClient.password none])
          st.adminClient.username st.adminClient.password = some e →
      processEntry env st tr adminUserID creds =
        (st, tr ++ [CallEvent.whoami st.adminClient.username st.adminClient.password none,
                    CallEvent.whoami st.adminClient.username st.adminClient.password (some e)],
         StepRes.halt
           (some ("failed to authenticate with current admin credentials: " ++ e.message)))) ∧
    (∀ (env : Env) (st : PUState) (tr : List CallEvent) (creds : UserCredentials),
      credsUnchanged st.credentialState adminUserID creds = false →
      env.whoami tr st.adminClient.username st.adminClient.password = none →
      st.adminClient.username ≠ creds.username →
      env.whoami
          (tr ++ [CallEvent.whoami st.adminClient.username st.adminClient.password none])
          st.adminClient.username st.adminClient.password = none →
      processEntry env st tr adminUserID creds =
        applyEntry env st
          (tr ++ [CallEvent.whoami st.adminClient.username st.adminClient.password none,
                  CallEvent.whoami st.adminClient.username st.adminClient.password none])
          adminUserID creds) :=
  ⟨processEntry_admin_gate_fail, processEntry_admin_gate_ok_same,
   processEntry_admin_gate_ok_rename_fail, processEntry_admin_gate_ok_rename_ok⟩

/-- Witness for C7 at concrete scenarios covering all four cases,
including a history-sensitive oracle whose second identity check
fails. -/
theorem C7_admin_gate_before_upsert_witness :
    processEntry envC7x stC7w [] adminUserID credC7w =
      (stC7w, [CallEvent.whoami "admin" "oldpw" (some RErr.unauthorized)],
       StepRes.halt (some ("failed to authenticate with current admin credentials: " ++
         errUnauthorized))) ∧
    processEntry envC7w stC7w [] adminUserID credC7w =
      applyEntry envC7w stC7w [CallEvent.whoami "admin" "oldpw" none] adminUserID credC7w ∧
    processEntry envC7s stC7r [] adminUserID credC7w =
      (stC7r, [CallEvent.whoami "root" "oldpw" none,
               CallEvent.whoami "root" "oldpw" (some RErr.unauthorized)],
       StepRes.halt (some ("failed to authenticate with current admin credentials: " ++
         errUnauthorized))) ∧
    processEntry envC7w stC7r [] adminUserID credC7w =
      applyEntry envC7w stC7r
        [CallEvent.whoami "root" "oldpw" none, CallEvent.whoami "root" "oldpw" none]
        adminUserID credC7w := by
  refine ⟨?_, ?_, ?_, ?_⟩
  · exact C7_admin_gate_before_upsert.1 envC7x stC7w [] credC7w RErr.unauthorized (by decide) rfl
  · exact C7_admin_gate_before_upsert.2.1 envC7w stC7w [] credC7w (by decide) rfl rfl
  · exact C7_admin_gate_before_upsert.2.2.1 envC7s stC7r [] credC7w RErr.unauthorized
      (by decide) rfl (by decide) rfl
  · exact C7_admin_gate_before_upsert.2.2.2 envC7w stC7r [] credC7w (by decide) rfl (by decide) rfl

/-- C8: after a successful admin apply the sync step rewrites the admin
file exactly when the trimmed `username`/`password` keys of the default
section differ from the committed credential (a missing file counts as
a mismatch for a non-empty username), the rewrite only touches those
two keys of that section and preserves every other section and key,
and the final identity re-validation merely appends one `Whoami` event:
its outcome affects neither the state nor any error. -/
theorem C8_admin_file_sync :
    (∀ (env : Env) (st : PUState) (tr : List CallEvent) (cred : UserCredentials),
      (adminFileSync env st tr cred).fst =
        (if checkAdminFile st.adminFile cred then st
         else { st with adminFile := some (updateAdminFile st.adminFile cred) }) ∧
      (adminFileSync env st tr cred).snd =
        tr ++ [CallEvent.whoami st.adminClient.username st.adminClient.password
          (env.whoami tr st.adminClient.username st.adminClient.password)]) ∧
    (∀ (file : Option IniFile) (cred : UserCredentials),
      checkAdminFile file cred = true ↔
        (strTrim (iniGet (looseLoad file) adminFileSection "username") = cred.username ∧
         strTrim (iniGet (looseLoad file) adminFileSection "password") = cred.password)) ∧
    (∀ cred : UserCredentials, cred.username ≠ "" → checkAdminFile none cred = false) ∧
    (∀ (file : Option IniFile) (cred : UserCredentials) (sec key : String),
      ¬(sec = adminFileSection ∧ (key = "username" ∨ key = "password")) →
      iniGet (updateAdminFile file cred) sec key = iniGet (looseLoad file) sec key) ∧
    (∀ (file : Option IniFile) (cred : UserCredentials),
      iniGet (updateAdminFile file cred) adminFileSection "username" = cred.username ∧
      iniGet (updateAdminFile file cred) adminFileSection "password" = cred.password) := by
  refine ⟨?_, ?_, ?_, ?_, ?_⟩
  · intro env st tr cred
    exact ⟨adminFileSync_fst env st tr cred, adminFileSync_snd env st tr cred⟩
  · intro file cred
    simp only [checkAdminFile]
    split
    · rename_i hA
      simp only [Bool.false_eq_true, false_iff]
      rintro ⟨h1, h2⟩
      rcases hA with hA | hA
      · exact hA h1
      · exact hA h2
    · rename_i hA
      push_neg at hA
      simp only [true_iff]
      exact hA
  · intro cred h
    simp only [checkAdminFile, looseLoad]
    rw [if_pos]
    exact Or.inl (fun hc => h hc.symm)
  · intro file cred sec key hno
    simp only [updateAdminFile]
    rw [iniGet_iniSet, iniGet_iniSet]
    rw [if_neg, if_neg]
    · intro hc
      exact hno ⟨hc.1, Or.inl hc.2⟩
    · intro hc
      exact hno ⟨hc.1, Or.inr hc.2⟩
  · intro file cred
    constructor
    · simp only [updateAdminFile]
      rw [iniGet_iniSet, if_neg, iniGet_iniSet, if_pos ⟨rfl, rfl⟩]
      intro hc
      have : ("username" : String) = "password" := hc.2
      simp at this
    · simp only [updateAdminFile]
      rw [iniGet_iniSet, if_pos ⟨rfl, rfl⟩]

/-- Witness for C8 at a concrete admin file with an unrelated section:
a missing file mismatches, the rewrite keeps the unrelated key and sets
the managed key, and the check characterisation holds. -/
theorem C8_admin_file_sync_witness :
    checkAdminFile none credC8w = false ∧
    iniGet (updateAdminFile (some fC8w) credC8w) "extra" "k" =
      iniGet (looseLoad (some fC8w)) "extra" "k" ∧
    (checkAdminFile (some fC8w) credC8w = true ↔
      (strTrim (iniGet (looseLoad (some fC8w)) adminFileSection "username") = credC8w.username ∧
       strTrim (iniGet (looseLoad (some fC8w)) adminFileSection "password") = credC8w.password)) ∧
    iniGet (updateAdminFile (some fC8w) credC8w) adminFileSection "password" = "pwd2" := by
  refine ⟨?_, ?_, ?_, ?_⟩
  · exact C8_admin_file_sync.2.2.1 credC8w (by decide)
  · exact C8_admin_file_sync.2.2.2.1 (some fC8w) credC8w "extra" "k" (by decide)
  · exact C8_admin_file_sync.2.1 (some fC8w) credC8w
  · exact (C8_admin_file_sync.2.2.2.2 (some fC8w) credC8w).2

end Updater
